import Mathlib

/-!
Shallow embedding of the task-execution and output-multiplexing core of
`configwebui` (file `src/configwebui/__init__.py`), together with theorems
checking the natural-language specification against it.

Python strings become `String`, dictionaries become association lists or
`String → Option _` maps, and the mutable attributes of a class instance
become the fields of a structure that each method threads explicitly.
-/

namespace ConfigWebUI

/-- Embedding of class `ResultStatus`: a success flag plus an ordered list of
human-readable messages. -/
structure ResultStatus where
  status : Bool
  messages : List String
deriving Repr, DecidableEq

namespace ResultStatus

/-- Embedding of `ResultStatus.set_status`. -/
def set_status (r : ResultStatus) (status : Bool) : ResultStatus :=
  { r with status := status }

/-- Embedding of `ResultStatus.get_status`. -/
def get_status (r : ResultStatus) : Bool :=
  r.status

/-- Embedding of `ResultStatus.add_message`. -/
def add_message (r : ResultStatus) (message : String) : ResultStatus :=
  { r with messages := r.messages ++ [message] }

/-- Embedding of `ResultStatus.get_messages`. -/
def get_messages (r : ResultStatus) : List String :=
  r.messages

/-- Embedding of `ResultStatus.copy`: rebuilds the status and re-adds every
message in order. -/
def copy (r : ResultStatus) : ResultStatus :=
  ⟨r.status, r.messages⟩

end ResultStatus

/-- Embedding of the mutable attributes of class `ProgramRunner`.  The
`StringIO` buffers `io_out`, `io_err`, `io_combined` are represented by their
current contents; `output`/`error`/`combined_output` are the accumulated
strings and `recently_added_*` the not-yet-delivered suffixes, exactly the
attributes created by `__init__` and `clear`. -/
structure ProgramRunner where
  running : Bool
  warning_occurred : Bool
  res : ResultStatus
  io_out : String
  io_err : String
  io_combined : String
  hide_terminal_output : Bool
  hide_terminal_error : Bool
  output : String
  recently_added_output : String
  error : String
  recently_added_error : String
  combined_output : String
  recently_added_combined_output : String
deriving Repr, DecidableEq

namespace ProgramRunner

/-- Embedding of `ProgramRunner.capture_output`: a no-op unless `running`;
otherwise read-and-truncate each transient buffer, append the extracted text
to the accumulated and recent fields, and raise `warning_occurred` when any
error text was extracted. -/
def capture_output (s : ProgramRunner) : ProgramRunner :=
  if s.running then
    let new_out := s.io_out
    let new_err := s.io_err
    let new_combined := s.io_combined
    { s with
      io_out := ""
      io_err := ""
      io_combined := ""
      output := s.output ++ new_out
      recently_added_output := s.recently_added_output ++ new_out
      error := s.error ++ new_err
      recently_added_error := s.recently_added_error ++ new_err
      combined_output := s.combined_output ++ new_combined
      recently_added_combined_output := s.recently_added_combined_output ++ new_combined
      warning_occurred := if new_err ≠ "" then true else s.warning_occurred }
  else s

/-- Embedding of `ProgramRunner.run`.  The argument `thread_alive` stands for
the Python guard `hasattr(self, "program_thread") and
self.program_thread.is_alive()`.  The pair returned is (new state, the
`ResultStatus` the method returns). -/
def run (s : ProgramRunner) (thread_alive : Bool) : ProgramRunner × ResultStatus :=
  if thread_alive then
    (s, ⟨false, ["Program is already running."]⟩)
  else
    ({ s with running := true, warning_occurred := false, res := ⟨true, []⟩ }, ⟨true, []⟩)

/-- Embedding of `ProgramRunner.get_output`: first `capture_output`, then
return either the accumulated or the recent output, resetting the recent
output to empty in both branches. -/
def get_output (s : ProgramRunner) (recent_only : Bool) : ProgramRunner × String :=
  let s := capture_output s
  let out := if recent_only then s.recently_added_output else s.output
  ({ s with recently_added_output := "" }, out)

/-- Embedding of `ProgramRunner.get_error`. -/
def get_error (s : ProgramRunner) (recent_only : Bool) : ProgramRunner × String :=
  let s := capture_output s
  let err := if recent_only then s.recently_added_error else s.error
  ({ s with recently_added_error := "" }, err)

/-- Embedding of `ProgramRunner.get_combined_output`. -/
def get_combined_output (s : ProgramRunner) (recent_only : Bool) : ProgramRunner × String :=
  let s := capture_output s
  let comb := if recent_only then s.recently_added_combined_output else s.combined_output
  ({ s with recently_added_combined_output := "" }, comb)

/-- Embedding of `ProgramRunner.get_res`. -/
def get_res (s : ProgramRunner) : ResultStatus :=
  s.res

/-- Embedding of `ProgramRunner.is_running`. -/
def is_running (s : ProgramRunner) : Bool :=
  s.running

/-- Embedding of `ProgramRunner.has_warning`. -/
def has_warning (s : ProgramRunner) : Bool :=
  s.warning_occurred

/-- Embedding of `ProgramRunner.clear`: a no-op while `is_running`; otherwise
reset every accumulated/recent field, the result and the warning flag. -/
def clear (s : ProgramRunner) : ProgramRunner :=
  if s.is_running then s
  else
    { s with
      output := ""
      recently_added_output := ""
      error := ""
      recently_added_error := ""
      combined_output := ""
      recently_added_combined_output := ""
      res := ⟨true, []⟩
      warning_occurred := false }

end ProgramRunner

/-- One write the wrapped function performs during its execution, through the
hijacked `sys.stdout` or `sys.stderr`.  `run_in_separate_context` registers the
worker thread with both multiplexers so that a stdout write lands in `io_out`
and `io_combined`, and a stderr write lands in `io_err` and `io_combined`
(calls to `add_stream` / `add_shared_stream` at the top of the method). -/
inductive WriteEv where
  | toOut (text : String)
  | toErr (text : String)
deriving Repr, DecidableEq

/-- Effect of one registered-thread write on the runner's transient buffers. -/
def applyWrite (s : ProgramRunner) : WriteEv → ProgramRunner
  | .toOut t => { s with io_out := s.io_out ++ t, io_combined := s.io_combined ++ t }
  | .toErr t => { s with io_err := s.io_err ++ t, io_combined := s.io_combined ++ t }

/-- Effect of a sequence of writes, in order. -/
def applyWrites (s : ProgramRunner) (ws : List WriteEv) : ProgramRunner :=
  ws.foldl applyWrite s

/-- Concatenation of the stdout payloads of a write sequence. -/
def outText : List WriteEv → String
  | [] => ""
  | .toOut t :: ws => t ++ outText ws
  | .toErr _ :: ws => outText ws

/-- Concatenation of the stderr payloads of a write sequence. -/
def errText : List WriteEv → String
  | [] => ""
  | .toOut _ :: ws => errText ws
  | .toErr t :: ws => t ++ errText ws

/-- Concatenation of all payloads of a write sequence, in order. -/
def allText : List WriteEv → String
  | [] => ""
  | .toOut t :: ws => t ++ allText ws
  | .toErr t :: ws => t ++ allText ws

/-- Return value of the wrapped function, as `run_in_separate_context`
classifies it: a `ResultStatus`, a bool, or anything else. -/
inductive RetVal where
  | status (r : ResultStatus)
  | boolRet (b : Bool)
  | other
deriving Repr

/-- Observable behaviour of one call of the wrapped function: the writes it
performs, then either a normal return value or a raised exception
(`summary` = `traceback.format_exception_only(...)` joined and stripped,
`trace` = `traceback.format_exc()`). -/
inductive FnBehavior where
  | normal (v : RetVal)
  | raises (summary trace : String)
deriving Repr

namespace ProgramRunner

/-- Embedding of the classification block of `run_in_separate_context`
(the `with self.lock:` block after a normal return), acting on the current
`self.res`. -/
def classify_return (cur : ResultStatus) : RetVal → ResultStatus
  | .status r =>
    let copied := r.copy
    if copied.get_messages.length = 0 then copied.add_message "Success." else copied
  | .boolRet b =>
    if !b then (cur.set_status false).add_message "Failed."
    else cur.add_message "Success."
  | .other => cur.add_message "Success."

/-- Embedding of `ProgramRunner.run_in_separate_context`, executed on the
worker thread.  `marker` is the body of the timestamped line
`print(f">_ [{...}]")` (so `marker ++ "\n"` reaches stdout first), `writes`
are the writes the wrapped function performs, and `behavior` tells whether it
returns normally or raises.  On a raise, the caught-exception branch forces
failure, appends the exception summary as a message and appends the full
trace to the accumulated and recent error text.  Both branches clear
`running` last. -/
def run_in_separate_context (s : ProgramRunner) (marker : String)
    (writes : List WriteEv) (behavior : FnBehavior) : ProgramRunner :=
  let s := applyWrite s (.toOut (marker ++ "\n"))
  let s := applyWrites s writes
  match behavior with
  | .normal v =>
    let s := s.capture_output
    let s := { s with res := classify_return s.res v }
    { s with running := false }
  | .raises summary trace =>
    let s := s.capture_output
    let s :=
      { s with
        res := (s.res.set_status false).add_message summary
        error := s.error ++ trace
        recently_added_error := s.recently_added_error ++ trace }
    { s with running := false }

end ProgramRunner

/-- One event of a sequential history against a running task: either the task
writes `text` to stdout, or the single polling caller performs
`get_output(recent_only=True)`. -/
inductive PollEv where
  | write (text : String)
  | poll
deriving Repr, DecidableEq

namespace ProgramRunner

/-- One step of the write/poll history: a write goes through the multiplexer
into the transient buffers; a poll is `get_output(recent_only=True)`, whose
returned chunk is appended to the list of delivered chunks. -/
def pollStep : ProgramRunner × List String → PollEv → ProgramRunner × List String
  | (s, chunks), .write t => (applyWrite s (.toOut t), chunks)
  | (s, chunks), .poll =>
    let (s, c) := s.get_output true
    (s, chunks ++ [c])

/-- Run a whole write/poll history from a state with no chunks delivered. -/
def pollRun (s : ProgramRunner) (evs : List PollEv) : ProgramRunner × List String :=
  evs.foldl pollStep (s, [])

end ProgramRunner

/-- Concatenation of a list of strings, in order. -/
def concatStrs : List String → String
  | [] => ""
  | s :: rest => s ++ concatStrs rest

/-- Concatenation of the payloads written during a write/poll history. -/
def writtenText : List PollEv → String
  | [] => ""
  | .write t :: evs => t ++ writtenText evs
  | .poll :: evs => writtenText evs

/-! Trace model of class `ThreadOutputStream`.  Lock objects and `StringIO`
objects are identified by opaque numeric references; `write` is embedded as
the sequence of lock acquisitions, appends and lock releases it performs, in
source order. -/

/-- One observable action of `ThreadOutputStream.write`: acquire a lock,
append text to a stream, or release a lock. -/
inductive MuxAction where
  | acq (lockRef : Nat)
  | appendTo (streamRef : Nat) (text : String)
  | rel (lockRef : Nat)
deriving Repr, DecidableEq

/-- Embedding of the attributes of class `ThreadOutputStream`: the base
stream and its lock, and the five per-thread dictionaries. -/
structure ThreadOutputStream where
  base_stream : Nat
  lock : Nat
  streams : String → Option Nat
  streams_to_terminal : String → Option Bool
  streams_lock : String → Option Nat
  shared_streams : String → Option Nat
  shared_streams_lock : String → Option Nat

namespace ThreadOutputStream

/-- Embedding of `ThreadOutputStream.add_stream`: upsert all three
per-thread dictionaries for `thread_id`. -/
def add_stream (t : ThreadOutputStream) (thread_id : String) (stream lockRef : Nat)
    (to_terminal : Bool) : ThreadOutputStream :=
  { t with
    streams := fun id => if id = thread_id then some stream else t.streams id
    streams_to_terminal := fun id => if id = thread_id then some to_terminal else t.streams_to_terminal id
    streams_lock := fun id => if id = thread_id then some lockRef else t.streams_lock id }

/-- Embedding of `ThreadOutputStream.add_shared_stream`. -/
def add_shared_stream (t : ThreadOutputStream) (thread_id : String)
    (shared_stream shared_lock : Nat) : ThreadOutputStream :=
  { t with
    shared_streams := fun id => if id = thread_id then some shared_stream else t.shared_streams id
    shared_streams_lock := fun id => if id = thread_id then some shared_lock else t.shared_streams_lock id }

/-- Embedding of `ThreadOutputStream.write` as the trace of actions it
performs for the calling thread `thread_id`: the `.get(...)` lookups with
their defaults, then the three lock-bracketed appends in source order. -/
def write (t : ThreadOutputStream) (thread_id message : String) : List MuxAction :=
  let stream := (t.streams thread_id).getD t.base_stream
  let lk := (t.streams_lock thread_id).getD t.lock
  [.acq lk, .appendTo stream message, .rel lk]
  ++ (if (t.streams_to_terminal thread_id).getD false then
        [.acq t.lock, .appendTo t.base_stream message, .rel t.lock]
      else [])
  ++ (match t.shared_streams thread_id, t.shared_streams_lock thread_id with
      | some sh, some sl => [.acq sl, .appendTo sh message, .rel sl]
      | _, _ => [])

end ThreadOutputStream

/-! Lock-discipline trace model for `ProgramRunner`.  Each method is embedded
as the sequence of its acquisitions/releases of the runner's main `self.lock`
and of its reads/writes of the cross-thread mutable attributes, in source
order.  The dedicated buffer locks (`output_lock` etc.) guard only the
transient `StringIO` objects and are not the runner's own lock, so they do
not appear. -/

/-- Cross-thread mutable attributes of `ProgramRunner`. -/
inductive RField where
  | running
  | warning
  | result
  | outputAcc
  | recentOutput
  | errorAcc
  | recentError
  | combinedAcc
  | recentCombined
deriving Repr, DecidableEq

/-- One action of a `ProgramRunner` method on the runner's own lock or on a
cross-thread mutable attribute. -/
inductive LockAct where
  | acq
  | rel
  | readF (f : RField)
  | writeF (f : RField)
deriving Repr, DecidableEq

/-- Check of a trace against the discipline claimed by the specification:
every read or write of a tracked attribute happens while the runner's own
lock is held (`d` counts currently-held acquisitions). -/
def guardedFrom : Nat → List LockAct → Bool
  | _, [] => true
  | d, .acq :: rest => guardedFrom (d + 1) rest
  | d, .rel :: rest => guardedFrom (d - 1) rest
  | d, .readF _ :: rest => decide (0 < d) && guardedFrom d rest
  | d, .writeF _ :: rest => decide (0 < d) && guardedFrom d rest

/-- Trace check starting with the lock not held. -/
def guarded (tr : List LockAct) : Bool :=
  guardedFrom 0 tr

/-- Trace of `ProgramRunner.capture_output`: the unguarded read of
`self.running` in the early-out test, then (when running) the
`with self.lock:` block appending to the six accumulated/recent attributes
and conditionally raising the warning flag (`err_nonempty` tells whether any
error text was extracted). -/
def capture_output_trace (running_now err_nonempty : Bool) : List LockAct :=
  .readF .running ::
  (if running_now then
    [.acq,
     .readF .outputAcc, .writeF .outputAcc,
     .readF .recentOutput, .writeF .recentOutput,
     .readF .errorAcc, .writeF .errorAcc,
     .readF .recentError, .writeF .recentError,
     .readF .combinedAcc, .writeF .combinedAcc,
     .readF .recentCombined, .writeF .recentCombined]
    ++ (if err_nonempty then [.writeF .warning] else [])
    ++ [.rel]
  else [])

/-- Trace of the accepted path of `ProgramRunner.run`: the three attribute
writes before the worker thread starts, performed with no lock held. -/
def run_trace : List LockAct :=
  [.writeF .running, .writeF .warning, .writeF .result]

/-- Trace of the result-classification block of `run_in_separate_context`
for each shape of return value (`set_status` and `add_message` each
read-modify-write `self.res`; the `ResultStatus` branch assigns it and then
inspects its messages). -/
def classify_return_trace : RetVal → List LockAct
  | .status r =>
    [.writeF .result, .readF .result]
    ++ (if r.get_messages.length = 0 then [.readF .result, .writeF .result] else [])
  | .boolRet b =>
    if !b then [.readF .result, .writeF .result, .readF .result, .writeF .result]
    else [.readF .result, .writeF .result]
  | .other => [.readF .result, .writeF .result]

/-- Trace of `ProgramRunner.run_in_separate_context` after the wrapped
function finishes: the `capture_output` call, the `with self.lock:` block of
the taken branch, and the final write of `self.running` after the lock has
been released. -/
def run_in_separate_context_trace (err_nonempty : Bool) : FnBehavior → List LockAct
  | .normal v =>
    capture_output_trace true err_nonempty
    ++ [.acq] ++ classify_return_trace v ++ [.rel]
    ++ [.writeF .running]
  | .raises _ _ =>
    capture_output_trace true err_nonempty
    ++ [.acq,
        .readF .result, .writeF .result, .readF .result, .writeF .result,
        .readF .errorAcc, .writeF .errorAcc,
        .readF .recentError, .writeF .recentError,
        .rel]
    ++ [.writeF .running]

/-- Trace of `ProgramRunner.get_output`: the `capture_output` call followed
by the lock-guarded read of the requested output attribute and the reset of
the recent suffix. -/
def get_output_trace (running_now err_nonempty recent_only : Bool) : List LockAct :=
  capture_output_trace running_now err_nonempty
  ++ [.acq]
  ++ (if recent_only then [.readF .recentOutput] else [.readF .outputAcc])
  ++ [.writeF .recentOutput, .rel]

/-- Trace of `ProgramRunner.is_running`. -/
def is_running_trace : List LockAct :=
  [.acq, .readF .running, .rel]

/-- Trace of `ProgramRunner.has_warning`. -/
def has_warning_trace : List LockAct :=
  [.acq, .readF .warning, .rel]

/-- Trace of `ProgramRunner.get_res`. -/
def get_res_trace : List LockAct :=
  [.acq, .readF .result, .rel]

/-! Embedding of class `UserConfig` (profile store, validation and save
path), parametric in the type `Cfg` of configuration data: the JSON payloads
themselves are schema-validated by the external `jsonschema` collaborator and
are never inspected by the profile-management logic. -/

/-- Duck-typed value returned by an injected Python callable (the save or
extra-validation function): a `ResultStatus`, a bool, any other value (with
its truthiness), or a raised exception carrying its message. -/
inductive PyRet where
  | result (r : ResultStatus)
  | boolRet (b : Bool)
  | otherRet (truthy : Bool)
  | raises (msg : String)
deriving Repr

/-- Embedding of Python `str.strip()`: drop whitespace from both ends. -/
def pyStrip (s : String) : String :=
  ⟨((s.data.dropWhile Char.isWhitespace).reverse.dropWhile Char.isWhitespace).reverse⟩

/-- Python dictionary update `m[k] = v`: replace in place if present,
append otherwise. -/
def dictSet {Cfg : Type} (m : List (String × Cfg)) (k : String) (v : Cfg) :
    List (String × Cfg) :=
  if m.any (fun p => p.1 == k) then m.map (fun p => if p.1 = k then (k, v) else p)
  else m ++ [(k, v)]

/-- Python dictionary deletion `del m[k]`. -/
def dictDel {Cfg : Type} (m : List (String × Cfg)) (k : String) : List (String × Cfg) :=
  m.filter fun p => p.1 ≠ k

/-- Python dictionary lookup `m.get(k)` / `k in m`. -/
def dictGet {Cfg : Type} (m : List (String × Cfg)) (k : String) : Option Cfg :=
  match m with
  | [] => none
  | p :: rest => if p.1 = k then some p.2 else dictGet rest k

/-- Embedding of the attributes of class `UserConfig`.  `schema_validate`
stands for the external `jsonschema.validate` call on `self.schema` (`none`
= passes, `some m` = `ValidationError` with message `m`), and `default_json`
for `UserConfig.generate_default_json(self.schema)`, both external to the
profile-management logic under check. -/
structure UserConfig (Cfg : Type) where
  name : String
  friendly_name : String
  schema_validate : Cfg → Option String
  extra_validation_func : String → Cfg → PyRet
  save_func : String → String → Option Cfg → PyRet
  config : List (String × Cfg)
  default_profile_only : Bool
  saving : Bool
  default_json : Cfg

namespace UserConfig

/-- Constant `UserConfig.DEFAULT_PROFILE_NAME`. -/
def DEFAULT_PROFILE_NAME : String := "Default"

/-- Embedding of `UserConfig.check`: schema validation unless skipped, then
the duck-typed handling of the injected extra-validation function. -/
def check {Cfg : Type} (uc : UserConfig Cfg) (config : Cfg)
    (skip_schema_validations skip_extra_validations : Bool) : ResultStatus :=
  match (if skip_schema_validations then none else uc.schema_validate config) with
  | some m => ⟨false, ["Schema validation error: " ++ m]⟩
  | none =>
    if skip_extra_validations then ⟨true, []⟩
    else
      match uc.extra_validation_func uc.name config with
      | .result r => r
      | .boolRet b =>
        if b then ⟨true, []⟩ else ⟨false, ["Extra validation failed."]⟩
      | .otherRet truthy =>
        if truthy then ⟨true, []⟩ else ⟨false, ["Extra validation failed."]⟩
      | .raises m => ⟨false, ["Extra validation failed.", m]⟩

/-- Embedding of `UserConfig.has_profile`. -/
def has_profile {Cfg : Type} (uc : UserConfig Cfg) (name : String) : Bool :=
  (dictGet uc.config name).isSome

/-- Classification the tail of `UserConfig.save` applies to the value
obtained from the injected save function (a raised exception having first
been turned into `ResultStatus(False, str(e))` by the `except` clause). -/
def classify_save_return : PyRet → ResultStatus
  | .raises m => ⟨false, [m]⟩
  | .result r =>
    if r.get_status = false ∧ r.get_messages.length = 0 then
      ⟨false, ["An error occurred during file processing."]⟩
    else r
  | .boolRet b =>
    if b then ⟨true, []⟩
    else ⟨false, ["An error occurred during file processing."]⟩
  | .otherRet _ => ⟨true, []⟩

/-- Embedding of `UserConfig.save`: reject when a save is already in flight,
otherwise call the injected save function (`self.saving` is raised for the
duration of the call and lowered again before classification). -/
def save {Cfg : Type} (uc : UserConfig Cfg) (profile_name : String)
    (config : Option Cfg) : UserConfig Cfg × ResultStatus :=
  if uc.saving then
    (uc, ⟨false, ["Last save process has not finished yet, please try again later."]⟩)
  else
    let ret := uc.save_func uc.name profile_name config
    ({ uc with saving := false }, classify_save_return ret)

/-- Embedding of `UserConfig.update_profile`: name normalisation and guards,
validation, insertion into the profile dictionary, and — when `save_file` is
set and the save reports failure — deletion of the just-inserted profile and
return of the save's failure status. -/
def update_profile {Cfg : Type} (uc : UserConfig Cfg) (name : Option String)
    (config : Option Cfg) (skip_schema_validations skip_extra_validations save_file : Bool) :
    UserConfig Cfg × ResultStatus :=
  let name := pyStrip (name.getD DEFAULT_PROFILE_NAME)
  if name = "" then (uc, ⟨false, ["Profile name cannot be empty."]⟩)
  else if uc.default_profile_only = true ∧ name ≠ DEFAULT_PROFILE_NAME then
    (uc, ⟨false, ["Custom profiles are disabled, use the default profile only."]⟩)
  else
    let config := config.getD uc.default_json
    let res_check := uc.check config skip_schema_validations skip_extra_validations
    if res_check.get_status = false then (uc, res_check)
    else
      let uc1 := { uc with config := dictSet uc.config name config }
      if save_file then
        let saved := uc1.save name (some config)
        if saved.2.get_status = false then
          ({ saved.1 with config := dictDel saved.1.config name }, saved.2)
        else (saved.1, ⟨true, []⟩)
      else (uc1, ⟨true, []⟩)

end UserConfig

/-! Helper lemmas. -/

theorem append_ne_empty_right (a b : String) (h : b ≠ "") : a ++ b ≠ "" := by
  intro hc
  apply h
  cases a
  cases b
  simp [String.append, String.ext_iff] at hc ⊢
  exact hc.2

theorem concatStrs_append_singleton (l : List String) (x : String) :
    concatStrs (l ++ [x]) = concatStrs l ++ x := by
  induction l with
  | nil => simp [concatStrs]
  | cons a l ih => simp [concatStrs, ih, String.append_assoc]

theorem applyWrites_cons (s : ProgramRunner) (w : WriteEv) (ws : List WriteEv) :
    applyWrites s (w :: ws) = applyWrites (applyWrite s w) ws :=
  rfl

theorem applyWrite_frame (s : ProgramRunner) (w : WriteEv) :
    (applyWrite s w).res = s.res
    ∧ (applyWrite s w).running = s.running
    ∧ (applyWrite s w).warning_occurred = s.warning_occurred
    ∧ (applyWrite s w).output = s.output
    ∧ (applyWrite s w).recently_added_output = s.recently_added_output
    ∧ (applyWrite s w).error = s.error
    ∧ (applyWrite s w).recently_added_error = s.recently_added_error
    ∧ (applyWrite s w).combined_output = s.combined_output
    ∧ (applyWrite s w).recently_added_combined_output = s.recently_added_combined_output := by
  cases w <;> exact ⟨rfl, rfl, rfl, rfl, rfl, rfl, rfl, rfl, rfl⟩

theorem applyWrites_frame (ws : List WriteEv) :
    ∀ s : ProgramRunner,
      (applyWrites s ws).res = s.res
      ∧ (applyWrites s ws).running = s.running
      ∧ (applyWrites s ws).warning_occurred = s.warning_occurred
      ∧ (applyWrites s ws).output = s.output
      ∧ (applyWrites s ws).recently_added_output = s.recently_added_output
      ∧ (applyWrites s ws).error = s.error
      ∧ (applyWrites s ws).recently_added_error = s.recently_added_error
      ∧ (applyWrites s ws).combined_output = s.combined_output
      ∧ (applyWrites s ws).recently_added_combined_output = s.recently_added_combined_output := by
  induction ws with
  | nil => intro s; exact ⟨rfl, rfl, rfl, rfl, rfl, rfl, rfl, rfl, rfl⟩
  | cons w ws ih =>
      intro s
      rw [applyWrites_cons]
      obtain ⟨h1, h2, h3, h4, h5, h6, h7, h8, h9⟩ := ih (applyWrite s w)
      obtain ⟨g1, g2, g3, g4, g5, g6, g7, g8, g9⟩ := applyWrite_frame s w
      exact ⟨h1.trans g1, h2.trans g2, h3.trans g3, h4.trans g4, h5.trans g5,
             h6.trans g6, h7.trans g7, h8.trans g8, h9.trans g9⟩

theorem applyWrites_io (ws : List WriteEv) :
    ∀ s : ProgramRunner,
      (applyWrites s ws).io_out = s.io_out ++ outText ws
      ∧ (applyWrites s ws).io_err = s.io_err ++ errText ws
      ∧ (applyWrites s ws).io_combined = s.io_combined ++ allText ws := by
  induction ws with
  | nil => intro s; refine ⟨?_, ?_, ?_⟩ <;> simp [applyWrites, outText, errText, allText]
  | cons w ws ih =>
      intro s
      rw [applyWrites_cons]
      obtain ⟨h1, h2, h3⟩ := ih (applyWrite s w)
      cases w with
      | toOut t =>
          refine ⟨?_, ?_, ?_⟩ <;>
            simp [applyWrite, outText, errText, allText, String.append_assoc] at h1 h2 h3 ⊢ <;>
            simp [h1, h2, h3, String.append_assoc]
      | toErr t =>
          refine ⟨?_, ?_, ?_⟩ <;>
            simp [applyWrite, outText, errText, allText, String.append_assoc] at h1 h2 h3 ⊢ <;>
            simp [h1, h2, h3, String.append_assoc]

theorem capture_output_eq (s : ProgramRunner) (h : s.running = true) :
    s.capture_output
      = { s with
          io_out := ""
          io_err := ""
          io_combined := ""
          output := s.output ++ s.io_out
          recently_added_output := s.recently_added_output ++ s.io_out
          error := s.error ++ s.io_err
          recently_added_error := s.recently_added_error ++ s.io_err
          combined_output := s.combined_output ++ s.io_combined
          recently_added_combined_output := s.recently_added_combined_output ++ s.io_combined
          warning_occurred := if s.io_err ≠ "" then true else s.warning_occurred } := by
  simp [ProgramRunner.capture_output, h]

theorem capture_output_res (s : ProgramRunner) : (s.capture_output).res = s.res := by
  by_cases h : s.running = true <;> simp [ProgramRunner.capture_output, h]

theorem pollRun_invariant (evs : List PollEv) :
    ∀ (s : ProgramRunner) (chunks : List String), s.running = true →
      (evs.foldl ProgramRunner.pollStep (s, chunks)).1.running = true
      ∧ concatStrs (evs.foldl ProgramRunner.pollStep (s, chunks)).2
          ++ (evs.foldl ProgramRunner.pollStep (s, chunks)).1.recently_added_output
          ++ (evs.foldl ProgramRunner.pollStep (s, chunks)).1.io_out
        = concatStrs chunks ++ s.recently_added_output ++ s.io_out ++ writtenText evs := by
  induction evs with
  | nil =>
      intro s chunks h
      exact ⟨h, by simp [writtenText]⟩
  | cons ev evs ih =>
      intro s chunks h
      cases ev with
      | write t =>
          have hstep : ProgramRunner.pollStep (s, chunks) (.write t)
              = (applyWrite s (.toOut t), chunks) := rfl
          rw [List.foldl_cons, hstep]
          have hrun : (applyWrite s (.toOut t)).running = true := by
            rw [(applyWrite_frame s (.toOut t)).2.1]; exact h
          obtain ⟨h1, h2⟩ := ih (applyWrite s (.toOut t)) chunks hrun
          refine ⟨h1, ?_⟩
          rw [h2]
          simp [applyWrite, writtenText, String.append_assoc]
      | poll =>
          have hstep : ProgramRunner.pollStep (s, chunks) .poll
              = ({ s.capture_output with recently_added_output := "" },
                 chunks ++ [(s.capture_output).recently_added_output]) := rfl
          rw [List.foldl_cons, hstep]
          have hcap : s.capture_output
              = { s with
                  io_out := ""
                  io_err := ""
                  io_combined := ""
                  output := s.output ++ s.io_out
                  recently_added_output := s.recently_added_output ++ s.io_out
                  error := s.error ++ s.io_err
                  recently_added_error := s.recently_added_error ++ s.io_err
                  combined_output := s.combined_output ++ s.io_combined
                  recently_added_combined_output :=
                    s.recently_added_combined_output ++ s.io_combined
                  warning_occurred := if s.io_err ≠ "" then true else s.warning_occurred } := by
            simp [ProgramRunner.capture_output, h]
          have hrun2 : ({ s.capture_output with recently_added_output := "" } : ProgramRunner).running = true := by
            show (s.capture_output).running = true
            rw [hcap]
            exact h
          obtain ⟨h1, h2⟩ := ih { s.capture_output with recently_added_output := "" }
            (chunks ++ [(s.capture_output).recently_added_output]) hrun2
          refine ⟨h1, ?_⟩
          rw [h2, concatStrs_append_singleton, hcap]
          simp [writtenText, String.append_assoc]

theorem dictGet_dictDel {Cfg : Type} (l : List (String × Cfg)) (k : String) :
    dictGet (dictDel l k) k = none := by
  induction l with
  | nil => rfl
  | cons p l ih =>
      by_cases h : p.1 = k
      · simpa [dictDel, List.filter_cons, h] using ih
      · simpa [dictDel, List.filter_cons, dictGet, h] using ih

/-! Concrete states used by the witnesses and counterexamples. -/

/-- Freshly started runner: `running`, empty buffers, success placeholder
result, exactly the state `run` hands to the worker thread on a first call. -/
def runningRunner : ProgramRunner :=
  ⟨true, false, ⟨true, []⟩, "", "", "", false, false, "", "", "", "", "", ""⟩

/-- Idle runner carrying leftover text from a previous invocation. -/
def idleRunner : ProgramRunner :=
  ⟨false, true, ⟨false, ["m"]⟩, "y", "e", "c", false, false, "acc", "x", "err", "re", "comb", "rc"⟩

/-- Write/poll history used by the C1 witness. -/
def w1evs : List PollEv :=
  [.write "ab", .poll, .write "c", .write "", .write "d", .poll, .write "z"]

/-! Claim theorems. -/

/-- C1: for every sequence of stdout writes by a running task interleaved
with sequential `get_output(recent_only=True)` polls, the chunks delivered so
far plus the not-yet-delivered suffix concatenate to exactly the writes (no
byte duplicated, none dropped); a history closed by one final poll delivers
exactly the writes; and each recent-only read resets the undelivered suffix
to empty, so consecutive recent-only reads never overlap. -/
theorem c1_recent_polls_consume_exactly_the_writes (evs : List PollEv)
    (s : ProgramRunner) (h_run : s.running = true) (h_io : s.io_out = "")
    (h_recent : s.recently_added_output = "") :
    concatStrs (s.pollRun evs).2 ++ (s.pollRun evs).1.recently_added_output
        ++ (s.pollRun evs).1.io_out = writtenText evs
    ∧ concatStrs (s.pollRun (evs ++ [PollEv.poll])).2 = writtenText evs
    ∧ ∀ t : ProgramRunner, ((t.get_output true).1).recently_added_output = "" := by
  have hmain := pollRun_invariant evs s [] h_run
  refine ⟨?_, ?_, fun t => rfl⟩
  · have h2 := hmain.2
    rw [h_io, h_recent] at h2
    simpa [ProgramRunner.pollRun, concatStrs] using h2
  · rcases hE : List.foldl ProgramRunner.pollStep (s, ([] : List String)) evs with ⟨F, C⟩
    have hF : F.running = true := by
      have := hmain.1
      rw [hE] at this
      exact this
    have h2 := hmain.2
    rw [hE, h_io, h_recent] at h2
    simp only [concatStrs] at h2
    have hstep : ProgramRunner.pollStep (F, C) .poll
        = ({ F.capture_output with recently_added_output := "" },
           C ++ [(F.capture_output).recently_added_output]) := rfl
    have hcapF : (F.capture_output).recently_added_output
        = F.recently_added_output ++ F.io_out := by
      simp [ProgramRunner.capture_output, hF]
    rw [ProgramRunner.pollRun, List.foldl_append, hE, List.foldl_cons, List.foldl_nil,
        hstep, concatStrs_append_singleton, hcapF, ← String.append_assoc]
    simpa using h2

/-- C1 witness: a concrete history against a fresh running runner. -/
theorem c1_witness :
    runningRunner.running = true
    ∧ concatStrs (runningRunner.pollRun (w1evs ++ [PollEv.poll])).2 = writtenText w1evs :=
  ⟨rfl, (c1_recent_polls_consume_exactly_the_writes w1evs runningRunner rfl rfl rfl).2.1⟩

/-- C2: a fault raised by the wrapped function is contained at the
`run_in_separate_context` boundary: the result becomes a failure whose
message list is non-empty (it is exactly the fault's summary), the full fault
trace is appended to the accumulated error text, and everything the task
wrote to stdout before the fault — marker line included — is still returned
by `get_output(recent_only=False)`. -/
theorem c2_fault_contained_at_boundary (s : ProgramRunner)
    (marker summary trace : String) (writes : List WriteEv)
    (h_run : s.running = true) (h_res : s.res = ⟨true, []⟩) :
    (s.run_in_separate_context marker writes (.raises summary trace)).res
        = ⟨false, [summary]⟩
    ∧ (s.run_in_separate_context marker writes (.raises summary trace)).error
        = s.error ++ (s.io_err ++ errText writes) ++ trace
    ∧ ((s.run_in_separate_context marker writes (.raises summary trace)).get_output false).2
        = s.output ++ (s.io_out ++ (marker ++ "\n") ++ outText writes) := by
  obtain ⟨f1, f2, f3, f4, f5, f6, f7, f8, f9⟩ :=
    applyWrites_frame writes (applyWrite s (.toOut (marker ++ "\n")))
  obtain ⟨i1, i2, i3⟩ := applyWrites_io writes (applyWrite s (.toOut (marker ++ "\n")))
  have e_res : (applyWrites (applyWrite s (.toOut (marker ++ "\n"))) writes).res = s.res :=
    f1.trans rfl
  have e_out : (applyWrites (applyWrite s (.toOut (marker ++ "\n"))) writes).output
      = s.output := f4.trans rfl
  have e_err : (applyWrites (applyWrite s (.toOut (marker ++ "\n"))) writes).error
      = s.error := f6.trans rfl
  have e_io_out : (applyWrites (applyWrite s (.toOut (marker ++ "\n"))) writes).io_out
      = s.io_out ++ (marker ++ "\n") ++ outText writes := i1.trans rfl
  have e_io_err : (applyWrites (applyWrite s (.toOut (marker ++ "\n"))) writes).io_err
      = s.io_err ++ errText writes := i2.trans rfl
  have h2run : (applyWrites (applyWrite s (.toOut (marker ++ "\n"))) writes).running = true :=
    (f2.trans rfl).trans h_run
  simp only [ProgramRunner.run_in_separate_context]
  rw [capture_output_eq _ h2run]
  refine ⟨?_, ?_, ?_⟩
  · simp [e_res, h_res, ResultStatus.set_status, ResultStatus.add_message]
  · simp [e_err, e_io_err, String.append_assoc]
  · simp [ProgramRunner.get_output, ProgramRunner.capture_output, e_out, e_io_out,
          String.append_assoc]

/-- C2 witness: a concrete fault after concrete stdout and stderr writes. -/
theorem c2_witness :
    runningRunner.running = true
    ∧ (runningRunner.run_in_separate_context "[t]" [.toOut "A", .toErr "w"]
        (.raises "E" "T")).res = ⟨false, ["E"]⟩
    ∧ ((runningRunner.run_in_separate_context "[t]" [.toOut "A", .toErr "w"]
        (.raises "E" "T")).get_output false).2 = "" ++ ("" ++ ("[t]" ++ "\n") ++ ("A" ++ "")) :=
  ⟨rfl,
   (c2_fault_contained_at_boundary runningRunner "[t]" "E" "T"
      [.toOut "A", .toErr "w"] rfl rfl).1,
   (c2_fault_contained_at_boundary runningRunner "[t]" "E" "T"
      [.toOut "A", .toErr "w"] rfl rfl).2.2⟩

/-- C4: classification of the wrapped function's return value by
`run_in_separate_context` starting from the result placeholder `run`
installed: a `ResultStatus` is copied, with the default "Success." message
appended exactly when it carried no messages; `False` yields a failure with
the default failure message; `True` and any other value yield a success. -/
theorem c4_return_value_classification (s : ProgramRunner) (marker : String)
    (writes : List WriteEv) (h_res : s.res = ⟨true, []⟩) :
    (∀ r : ResultStatus,
        (s.run_in_separate_context marker writes (.normal (.status r))).res
          = if r.messages = [] then ⟨r.status, ["Success."]⟩ else r)
    ∧ (s.run_in_separate_context marker writes (.normal (.boolRet false))).res
        = ⟨false, ["Failed."]⟩
    ∧ (s.run_in_separate_context marker writes (.normal (.boolRet true))).res
        = ⟨true, ["Success."]⟩
    ∧ (s.run_in_separate_context marker writes (.normal .other)).res
        = ⟨true, ["Success."]⟩ := by
  have hres2 : ((applyWrites (applyWrite s (.toOut (marker ++ "\n"))) writes).capture_output).res
      = s.res := by
    rw [capture_output_res,
        (applyWrites_frame writes (applyWrite s (.toOut (marker ++ "\n")))).1]
    rfl
  refine ⟨?_, ?_, ?_, ?_⟩ <;>
    simp only [ProgramRunner.run_in_separate_context] <;>
    simp only [ProgramRunner.classify_return, hres2, h_res]
  · intro r
    by_cases hr : r.messages = [] <;>
      simp [hr, ResultStatus.copy, ResultStatus.get_messages, ResultStatus.add_message,
            List.length_eq_zero]
  · simp [ResultStatus.set_status, ResultStatus.add_message]
  · simp [ResultStatus.add_message]
  · simp [ResultStatus.add_message]

/-- C4 witness: concrete classification of each return shape. -/
theorem c4_witness :
    runningRunner.res = ⟨true, []⟩
    ∧ (runningRunner.run_in_separate_context "m" [] (.normal (.boolRet false))).res
        = ⟨false, ["Failed."]⟩
    ∧ (runningRunner.run_in_separate_context "m" []
        (.normal (.status ⟨false, ["bad input"]⟩))).res = ⟨false, ["bad input"]⟩ :=
  ⟨rfl,
   (c4_return_value_classification runningRunner "m" [] rfl).2.1,
   by
     have h := (c4_return_value_classification runningRunner "m" [] rfl).1 ⟨false, ["bad input"]⟩
     simpa using h⟩

/-- C6: whenever the task wrote any error text, draining the buffers raises
the warning flag, and it stays up through the end of the invocation whatever
the outcome; in particular a task that wrote to stderr and returned a
success-shaped value ends with `has_warning` true while `get_res` reports a
success status — warnings and failures are orthogonal. -/
theorem c6_error_text_raises_warning (s : ProgramRunner) (marker : String)
    (writes : List WriteEv) (h_run : s.running = true) (h_res : s.res = ⟨true, []⟩)
    (h_err : errText writes ≠ "") :
    (∀ b : FnBehavior, (s.run_in_separate_context marker writes b).has_warning = true)
    ∧ (∀ r : ResultStatus, r.status = true →
        ((s.run_in_separate_context marker writes (.normal (.status r))).get_res).status
          = true)
    ∧ ((s.run_in_separate_context marker writes (.normal (.boolRet true))).get_res).status
        = true
    ∧ ((s.run_in_separate_context marker writes (.normal .other)).get_res).status
        = true := by
  have hw : applyWrite s (.toOut (marker ++ "\n"))
      = { s with
          io_out := s.io_out ++ (marker ++ "\n")
          io_combined := s.io_combined ++ (marker ++ "\n") } := rfl
  obtain ⟨i1, i2, i3⟩ := applyWrites_io writes (applyWrite s (.toOut (marker ++ "\n")))
  have h2run : (applyWrites (applyWrite s (.toOut (marker ++ "\n"))) writes).running = true := by
    rw [(applyWrites_frame writes (applyWrite s (.toOut (marker ++ "\n")))).2.1, hw]
    exact h_run
  have h2err : (applyWrites (applyWrite s (.toOut (marker ++ "\n"))) writes).io_err ≠ "" := by
    rw [i2, hw]
    exact append_ne_empty_right _ _ h_err
  have hres2 : ((applyWrites (applyWrite s (.toOut (marker ++ "\n"))) writes).capture_output).res
      = s.res := by
    rw [capture_output_res,
        (applyWrites_frame writes (applyWrite s (.toOut (marker ++ "\n")))).1]
    rfl
  refine ⟨?_, ?_, ?_, ?_⟩
  · intro b
    cases b <;>
      simp only [ProgramRunner.run_in_separate_context] <;>
      rw [capture_output_eq _ h2run] <;>
      simp [ProgramRunner.has_warning, h2err]
  · intro r hr
    simp only [ProgramRunner.run_in_separate_context, ProgramRunner.get_res,
               ProgramRunner.classify_return, hres2, h_res]
    by_cases hm : r.messages = [] <;>
      simp [hm, ResultStatus.copy, ResultStatus.get_messages, ResultStatus.add_message, hr]
  · simp only [ProgramRunner.run_in_separate_context, ProgramRunner.get_res,
               ProgramRunner.classify_return, hres2, h_res]
    simp [ResultStatus.add_message]
  · simp only [ProgramRunner.run_in_separate_context, ProgramRunner.get_res,
               ProgramRunner.classify_return, hres2, h_res]
    simp [ResultStatus.add_message]

/-- C6 witness: a concrete task that writes to stderr and returns `True`. -/
theorem c6_witness :
    runningRunner.running = true
    ∧ errText [WriteEv.toErr "warn"] ≠ ""
    ∧ (runningRunner.run_in_separate_context "m" [.toErr "warn"]
        (.normal (.boolRet true))).has_warning = true
    ∧ ((runningRunner.run_in_separate_context "m" [.toErr "warn"]
        (.normal (.boolRet true))).get_res).status = true :=
  ⟨rfl, by decide,
   (c6_error_text_raises_warning runningRunner "m" [.toErr "warn"] rfl rfl
      (by decide)).1 (.normal (.boolRet true)),
   (c6_error_text_raises_warning runningRunner "m" [.toErr "warn"] rfl rfl
      (by decide)).2.2.1⟩

/-- C3: while the worker thread is still alive, a second `run` call returns
the "already running" rejection and leaves the whole state exactly as it
was. -/
theorem c3_second_run_rejected_without_side_effects (s : ProgramRunner) :
    s.run true = (s, ⟨false, ["Program is already running."]⟩) :=
  rfl

/-- C7 counterexample: an accepted `run` call does not clear the transient
buffers nor the recent-suffix fields — on a state carrying leftover transient
text `"y"` and undelivered suffix `"x"`, both survive the call, contradicting
the claim that they are cleared before the worker starts. -/
theorem c7_counterexample :
    (idleRunner.run false).1.io_out = "y"
    ∧ (idleRunner.run false).1.recently_added_output = "x"
    ∧ ¬((idleRunner.run false).1.io_out = ""
        ∧ (idleRunner.run false).1.recently_added_output = "") := by
  refine ⟨rfl, rfl, ?_⟩
  intro h
  cases h with
  | intro h1 _ => exact absurd h1 (by decide)

/-- C7 amended: an accepted `run` call resets the warning flag and the
result, sets `running` and starts the worker; the transient out/err/combined
buffers and the recent-suffix fields are left untouched. -/
theorem c7_amended_run_resets_flags_only (s : ProgramRunner) :
    s.run false
      = ({ s with running := true, warning_occurred := false, res := ⟨true, []⟩ },
         ⟨true, []⟩) :=
  rfl

/-- C8: `clear` is a no-op while the runner is running — every field is
unchanged and `get_output` afterwards still returns all accumulated output —
and when not running it resets all accumulated/recent text, the result and
the warning flag. -/
theorem c8_clear_noop_while_running (s : ProgramRunner) :
    (s.running = true →
      s.clear = s ∧ (s.clear.get_output false).2 = (s.get_output false).2)
    ∧ (s.running = false →
        s.clear = { s with
                    output := ""
                    recently_added_output := ""
                    error := ""
                    recently_added_error := ""
                    combined_output := ""
                    recently_added_combined_output := ""
                    res := ⟨true, []⟩
                    warning_occurred := false }) := by
  constructor
  · intro h
    have hc : s.clear = s := by
      simp [ProgramRunner.clear, ProgramRunner.is_running, h]
    exact ⟨hc, by rw [hc]⟩
  · intro h
    simp [ProgramRunner.clear, ProgramRunner.is_running, h]

/-- C8 witness: `clear` on a concrete running state and on a concrete idle
state. -/
theorem c8_witness :
    runningRunner.clear = runningRunner
    ∧ idleRunner.clear
        = ⟨false, false, ⟨true, []⟩, "y", "e", "c", false, false,
           "", "", "", "", "", ""⟩ :=
  ⟨((c8_clear_noop_while_running runningRunner).1 rfl).1,
   (c8_clear_noop_while_running idleRunner).2 rfl⟩

/-- Multiplexer with no thread registered, used to build the C5 witness. -/
def emptyMux : ThreadOutputStream :=
  ⟨0, 100, fun _ => none, fun _ => none, fun _ => none, fun _ => none, fun _ => none⟩

/-- Multiplexer with one registered worker thread, mirroring the
registrations `run_in_separate_context` performs. -/
def sampleMux : ThreadOutputStream :=
  (emptyMux.add_stream "worker-1" 1 101 true).add_shared_stream "worker-1" 2 102

/-- C5: a `write` from an unregistered thread appends only to the base
stream under the multiplexer's default lock; a `write` from a registered
thread appends to the thread's buffer under that thread's lock, additionally
to the base stream under the multiplexer's own lock exactly when the
mirror-to-terminal flag is set, and additionally to the shared buffer under
its own lock exactly when one is registered — each lock acquired and
released independently, in the order per-thread, terminal, shared. -/
theorem c5_write_lock_routing (t : ThreadOutputStream) (tid msg : String) :
    (t.streams tid = none → t.streams_lock tid = none → t.streams_to_terminal tid = none →
      t.shared_streams tid = none →
      t.write tid msg = [.acq t.lock, .appendTo t.base_stream msg, .rel t.lock])
    ∧ (∀ buf lk : Nat, ∀ term : Bool,
        t.streams tid = some buf → t.streams_lock tid = some lk →
        t.streams_to_terminal tid = some term →
        t.write tid msg
          = [.acq lk, .appendTo buf msg, .rel lk]
            ++ (if term then [.acq t.lock, .appendTo t.base_stream msg, .rel t.lock] else [])
            ++ (match t.shared_streams tid, t.shared_streams_lock tid with
                | some sh, some sl => [.acq sl, .appendTo sh msg, .rel sl]
                | _, _ => [])) := by
  constructor
  · intro h1 h2 h3 h4
    simp [ThreadOutputStream.write, h1, h2, h3, h4]
  · intro buf lk term h1 h2 h3
    simp [ThreadOutputStream.write, h1, h2, h3]

/-- C5 witness: the registered worker thread of `sampleMux` and an
unregistered thread. -/
theorem c5_witness :
    sampleMux.streams "worker-1" = some 1
    ∧ sampleMux.write "worker-1" "hi"
        = [.acq 101, .appendTo 1 "hi", .rel 101,
           .acq 100, .appendTo 0 "hi", .rel 100,
           .acq 102, .appendTo 2 "hi", .rel 102]
    ∧ sampleMux.write "other" "hi" = [.acq 100, .appendTo 0 "hi", .rel 100] :=
  ⟨rfl,
   by
     have h := (c5_write_lock_routing sampleMux "worker-1" "hi").2 1 101 true rfl rfl rfl
     simpa using h,
   (c5_write_lock_routing sampleMux "other" "hi").1 rfl rfl rfl rfl⟩

/-- C9 counterexample: the accepted path of `run` writes the `running` and
`warning_occurred` flags and the result without holding the runner's own
lock, so the claimed discipline — every read or write of a cross-thread
mutable field happens under the lock — fails on the `run` operation. -/
theorem c9_counterexample : guarded run_trace = false := by decide

/-- C9 amended: the accessors `is_running`, `has_warning` and `get_res`
touch the flags and the result only under the runner's own lock, and the
buffer-merging block of `capture_output` mutates the accumulated fields and
the warning flag only under the lock; but `run` writes `running`, the
warning flag and the result with no lock held, `run_in_separate_context`
clears `running` after releasing the lock and `capture_output` (and with it
every `get_*` accessor) reads `running` unguarded, so those operations
violate the discipline. -/
theorem c9_amended_lock_discipline :
    guarded is_running_trace = true
    ∧ guarded has_warning_trace = true
    ∧ guarded get_res_trace = true
    ∧ (∀ e : Bool, guarded (List.drop 1 (capture_output_trace true e)) = true)
    ∧ guarded run_trace = false
    ∧ (∀ (e : Bool) (b : FnBehavior),
        guarded (run_in_separate_context_trace e b) = false)
    ∧ (∀ r e ro : Bool, guarded (get_output_trace r e ro) = false)
    ∧ (∀ r e : Bool, guarded (capture_output_trace r e) = false) := by
  refine ⟨by decide, by decide, by decide, by decide, by decide, ?_, ?_, ?_⟩
  · intro e b
    cases b <;>
      simp [run_in_separate_context_trace, capture_output_trace, guarded, guardedFrom]
  · intro r e ro
    simp [get_output_trace, capture_output_trace, guarded, guardedFrom]
  · intro r e
    simp [capture_output_trace, guarded, guardedFrom]

/-- Profile store with one existing profile and an injected save function
that reports failure, used by the C10 witness. -/
def sampleUC : UserConfig Nat :=
  ⟨"cfg", "Config", fun _ => none, fun _ _ => .result ⟨true, []⟩,
   fun _ _ _ => .boolRet false, [("p", 1)], false, false, 0⟩

/-- C10: when `update_profile` is called with `save_file` and the injected
save function reports failure, the profile name is absent from the store
after the call — even when a profile with that name existed before, whose
previous configuration is therefore lost rather than restored — and the
save's failure status is returned to the caller. -/
theorem c10_failed_save_deletes_profile {Cfg : Type} (uc : UserConfig Cfg)
    (name : String) (cfg : Cfg) (skipS skipE : Bool)
    (h_name : pyStrip name = name) (h_ne : name ≠ "")
    (h_only : uc.default_profile_only = false ∨ name = UserConfig.DEFAULT_PROFILE_NAME)
    (h_check : (uc.check cfg skipS skipE).get_status = true)
    (h_saving : uc.saving = false)
    (h_save : (UserConfig.classify_save_return
        (uc.save_func uc.name name (some cfg))).get_status = false) :
    dictGet (uc.update_profile (some name) (some cfg) skipS skipE true).1.config name = none
    ∧ (uc.update_profile (some name) (some cfg) skipS skipE true).2
        = UserConfig.classify_save_return (uc.save_func uc.name name (some cfg)) := by
  have h_guard2 : ¬(uc.default_profile_only = true ∧ name ≠ UserConfig.DEFAULT_PROFILE_NAME) := by
    rcases h_only with h | h
    · intro hc
      rw [h] at hc
      exact absurd hc.1 (by simp)
    · intro hc
      exact hc.2 h
  have h_check2 : ¬((uc.check cfg skipS skipE).get_status = false) := by
    rw [h_check]
    simp
  simp [UserConfig.update_profile, UserConfig.save, h_name, h_ne, h_guard2, h_check2,
        h_saving, h_save, dictGet_dictDel]

/-- C10 witness: the profile `"p"` exists beforehand, the save fails, and
afterwards `"p"` is gone and the failure is returned. -/
theorem c10_witness :
    dictGet sampleUC.config "p" = some 1
    ∧ dictGet (sampleUC.update_profile (some "p") (some 2) false false true).1.config "p" = none
    ∧ (sampleUC.update_profile (some "p") (some 2) false false true).2
        = ⟨false, ["An error occurred during file processing."]⟩ :=
  ⟨rfl,
   (c10_failed_save_deletes_profile sampleUC "p" 2 false false rfl (by decide)
      (Or.inl rfl) rfl rfl rfl).1,
   (c10_failed_save_deletes_profile sampleUC "p" 2 false false rfl (by decide)
      (Or.inl rfl) rfl rfl rfl).2⟩

end ConfigWebUI
